import Mathlib

/-!
Verification of the Global Caché integration driver core.

Shallow embedding of the repository's JavaScript sources:
* `src/util.js`   — `convertProntoToGlobalCache`, the PRONTO → sendir code translator;
* `src/device.js` — `GlobalCacheDevice`, the per-device communication session
  (infrared dedup memory and rolling command id);
* `src/config.js` — `Devices`, the persistent device configuration store;
* `src/setup_flow.js` — the onboarding wizard's discovery filtering and abort handling.

JavaScript numbers are modelled as exact integers / rationals (all values that
occur stay far below 2^53, where IEEE doubles are exact on integers); JavaScript
`NaN`/`undefined` results of `parseInt` and out-of-range indexing are modelled
with `Option`.  Strings are modelled through their character lists.
-/

namespace GlobalCache

/-! ### util.js — `convertProntoToGlobalCache` -/

/-- Character class of the split pattern in `prontoHex.split(/[ ,]/)`. -/
def isSepChar (c : Char) : Bool := c == ' ' || c == ','

/-- JS `String.prototype.split` on a single-character class: splits at every
separator character, keeping empty fragments (as the JS regex split does). -/
def splitTokensAux : List Char → List Char → List (List Char)
  | [], acc => [acc.reverse]
  | c :: rest, acc =>
    if isSepChar c then acc.reverse :: splitTokensAux rest []
    else splitTokensAux rest (c :: acc)

/-- The split `prontoHex.split(/[ ,]/)`. -/
def splitTokens (s : String) : List String :=
  (splitTokensAux s.data []).map String.mk

/-- JavaScript whitespace skipped by `parseInt`. -/
def isJsSpace (c : Char) : Bool := c == ' ' || c == '\t' || c == '\n' || c == '\r'

/-- Value of a digit character under the given radix, as `parseInt` accepts it. -/
def jsDigitVal (radix : Nat) (c : Char) : Option Nat :=
  if '0' ≤ c ∧ c ≤ '9' then
    if c.toNat - '0'.toNat < radix then some (c.toNat - '0'.toNat) else none
  else if 'a' ≤ c ∧ c ≤ 'z' then
    if c.toNat - 'a'.toNat + 10 < radix then some (c.toNat - 'a'.toNat + 10) else none
  else if 'A' ≤ c ∧ c ≤ 'Z' then
    if c.toNat - 'A'.toNat + 10 < radix then some (c.toNat - 'A'.toNat + 10) else none
  else none

/-- Longest leading run of digits valid in `radix`; `none` when there is no
leading digit at all (`parseInt` yields `NaN` in that case). -/
def parseDigitsAux (radix : Nat) : List Char → Option Nat → Option Nat
  | [], acc => acc
  | c :: rest, acc =>
    match jsDigitVal radix c with
    | some d => parseDigitsAux radix rest (some (acc.getD 0 * radix + d))
    | none => acc

/-- ECMAScript `parseInt(s)` (for `radix? = none`) and `parseInt(s, 16)`
(for `radix? = some 16`): skip whitespace, read an optional sign, strip a
`0x`/`0X` marker when the radix is 16 or unspecified, then read the longest
valid digit run.  `none` models the `NaN` result. -/
def jsParseInt (s : String) (radix? : Option Nat) : Option Int :=
  let cs := s.data.dropWhile isJsSpace
  let sign : Int := if cs.head? = some '-' then -1 else 1
  let cs := if cs.head? = some '-' ∨ cs.head? = some '+' then cs.tail else cs
  let hexMarked : Bool :=
    match cs with
    | '0' :: 'x' :: _ => true
    | '0' :: 'X' :: _ => true
    | _ => false
  let radix : Nat :=
    match radix? with
    | some r => r
    | none => if hexMarked then 16 else 10
  let cs := if radix = 16 && hexMarked then cs.tail.tail else cs
  (parseDigitsAux radix cs none).map (fun n => sign * (n : Int))

/-- JavaScript `Math.round` on a finite value: round half toward `+∞`. -/
def jsRound (q : ℚ) : Int := Int.floor (q + 1 / 2)

/-- Indexing `durations[i]` in JS: both a missing element (`undefined`) and a
`NaN` element behave the same in every context this code uses them in. -/
def jsIndex (l : List (Option Int)) (i : Nat) : Option Int := (l.get? i).getD none

/-- JS comparison `x > 0`, which is `false` for `NaN`/`undefined`. -/
def jsGtZero : Option Int → Bool
  | none => false
  | some n => 0 < n

/-- Template rendering of `Math.round(1000000 / (durations[0] * 0.241246))`:
`NaN` for a missing/unparsable first duration, `Infinity` for a zero carrier
period (division by zero), otherwise the rounded frequency.  The double literal
`0.241246` is exactly `241246 / 1000000` and the arithmetic is modelled over ℚ. -/
def frequencyStr : Option Int → String
  | none => "NaN"
  | some d =>
    if d = 0 then "Infinity"
    else toString (jsRound (1000000 / ((d : ℚ) * (241246 / 1000000))))

/-- Template rendering of one duration value inside `durations.slice(3).join(",")`. -/
def durationToStr : Option Int → String
  | none => "NaN"
  | some n => toString n

/-- Function `convertProntoToGlobalCache(prontoHex, repeatCount)` from `src/util.js`:
split on space/comma, require the format marker `parseInt(hexValues[0]) === 0`
(note: radix 10, since the source passes no radix there), parse the remaining
tokens base-16, and emit `frequency,repeatCount,preambleOffset,` followed by the
durations after the first three, comma-joined.  The thrown `Error` is modelled
as `Except.error` with the source's message. -/
def convertProntoToGlobalCache (prontoHex : String) (repeatCount : Int) :
    Except String String :=
  let hexValues := splitTokens prontoHex
  -- `hexValues[0]`; a split result is never empty, so the `headD` default is
  -- unreachable (and would throw the same error anyway, as `parseInt` of a
  -- missing token is `NaN ≠ 0`)
  if jsParseInt (hexValues.headD "") none ≠ some 0 then
    Except.error "Only raw PRONTO Hex codes are supported"
  else
    -- `hexValues.shift()` drops the format marker; the rest parse base-16
    let durations := hexValues.tail.map (fun h => jsParseInt h (some 16))
    let frequency := frequencyStr (jsIndex durations 0)
    let preambleOffset : Int :=
      if jsGtZero (jsIndex durations 1) && jsGtZero (jsIndex durations 2) then
        (jsIndex durations 1).getD 0 * 2 + 1
      else 1
    Except.ok (frequency ++ "," ++ toString repeatCount ++ "," ++
      toString preambleOffset ++ "," ++
      String.intercalate "," ((durations.drop 3).map durationToStr))

/-- The offset field of the emitted code, stated over the decoded duration
list as the specification words it: `D[1] * 2 + 1` when both the second and the
third decoded durations exist and are positive, else `1`. -/
def specOffset (D : List Int) : Int :=
  if 0 < D.getD 1 0 ∧ 0 < D.getD 2 0 then D.getD 1 0 * 2 + 1 else 1

/-- The carrier frequency of the emitted code, stated over the first decoded
duration as the specification words it. -/
def specFrequency (d : Int) : Int := jsRound (1000000 / ((d : ℚ) * (241246 / 1000000)))

lemma durationToStr_comp_some : durationToStr ∘ some = (fun n : Int => toString n) :=
  funext fun _ => rfl

/-- Workhorse: on an input whose token split is `t0 :: ts`, whose marker token
`t0` passes the source's acceptance test, and whose remaining tokens all parse
base-16 to the duration list `D` with a positive carrier period, the conversion
succeeds with the fully determined output string. -/
lemma convert_ok_of_accepted (s : String) (r : Int) (t0 : String) (ts : List String)
    (D : List Int) (hsplit : splitTokens s = t0 :: ts)
    (hmarker : jsParseInt t0 none = some 0)
    (hparse : ts.map (fun t => jsParseInt t (some 16)) = D.map some)
    (hne : D ≠ []) (hd0 : 0 < D.head!) :
    convertProntoToGlobalCache s r =
      Except.ok (toString (specFrequency D.head!) ++ "," ++ toString r ++ "," ++
        toString (specOffset D) ++ "," ++
        String.intercalate "," ((D.drop 3).map (fun n => toString n))) := by
  cases D with
  | nil => exact absurd rfl hne
  | cons d0 D =>
    have hd0' : (0 : Int) < d0 := by simpa using hd0
    simp only [convertProntoToGlobalCache, hsplit, List.headD_cons, List.tail_cons]
    cases D with
    | nil =>
      simp [hmarker, hparse, jsIndex, jsGtZero, frequencyStr, specFrequency,
        specOffset, durationToStr, hd0'.ne']
    | cons d1 D =>
      cases D with
      | nil =>
        by_cases h1 : (0 : Int) < d1 <;>
          simp [hmarker, hparse, jsIndex, jsGtZero, frequencyStr, specFrequency,
            specOffset, durationToStr, hd0'.ne', h1]
      | cons d2 D =>
        by_cases h1 : (0 : Int) < d1 <;> by_cases h2 : (0 : Int) < d2 <;>
          simp [hmarker, hparse, jsIndex, jsGtZero, frequencyStr, specFrequency,
            specOffset, durationToStr, hd0'.ne', h1, h2, durationToStr_comp_some]

/-! ### device.js — `GlobalCacheDevice` session state

Only the state a send can observe or change is modelled: the infrared
deduplication memory (`#lastSendIrPort`, `#lastSendIr`) and the rolling command
identifier `#irId`.  The transport reply is outside the model; `send` and
`sendPronto` return the successor state (and, for `sendPronto`, the wire
message handed to the transport). -/

structure DeviceSession where
  lastSendIrPort : String
  lastSendIr : String
  irId : Nat
deriving DecidableEq, Repr

/-- Field initializers of `GlobalCacheDevice`: `#lastSendIrPort = ""`,
`#lastSendIr = ""`, `#irId = 1`. -/
def initSession : DeviceSession := { lastSendIrPort := "", lastSendIr := "", irId := 1 }

/-- Method `send(data)`: clears `#lastSendIr` and forwards `data` to the transport. -/
def send (_data : String) (s : DeviceSession) : DeviceSession :=
  { s with lastSendIr := "" }

/-- Method `sendPronto(port, pronto, repeat)`: translate the code (with the repeat
count clamped to at least 1), advance the command id exactly when the (port,
payload) signature differs from the previous send (wrapping `65535 + 1` to 1),
and emit `sendir,{port},{id},{payload}`.  A translation error propagates with
the session state untouched, as the JS exception does. -/
def sendPronto (port pronto : String) (rep : Int) (s : DeviceSession) :
    Except String (DeviceSession × String) :=
  match convertProntoToGlobalCache pronto (if rep > 0 then rep else 1) with
  | Except.error e => Except.error e
  | Except.ok sendIr =>
    if s.lastSendIrPort ≠ port ∨ s.lastSendIr ≠ sendIr then
      Except.ok
        ({ lastSendIrPort := port, lastSendIr := sendIr,
           irId := if s.irId + 1 > 65535 then 1 else s.irId + 1 },
         "sendir," ++ port ++ "," ++
           toString (if s.irId + 1 > 65535 then 1 else s.irId + 1) ++ "," ++ sendIr)
    else
      Except.ok (s, "sendir," ++ port ++ "," ++ toString s.irId ++ "," ++ sendIr)

/-! ### config.js — `GcIrPort`, `GcDevice` and the `Devices` store

The store state is the in-memory record list `#config` together with the
persisted configuration file: `none` when the file does not exist, `some l`
when it holds the JSON serialization of the record list `l` (`JSON.stringify`
keeps exactly the own enumerable fields `id`, `name`, `address`, `irPorts`
with `module`/`port`/`mode`, which is the whole record as modelled here).
Add/remove callbacks are returned as an event list instead of being invoked. -/

structure GcIrPort where
  module : Nat
  port : Nat
  mode : String
deriving DecidableEq, Repr

structure GcDevice where
  id : String
  name : String
  address : String
  irPorts : List GcIrPort
deriving DecidableEq, Repr

structure DevicesState where
  config : List GcDevice
  file : Option (List GcDevice)
deriving DecidableEq, Repr

/-- A fired lifecycle callback: `#addHandler(device)` or
`#removeHandler(device)`; `removed none` is the `removeHandler(null)` sentinel
fired by `clear()`. -/
inductive GcEvent where
  | added (device : GcDevice)
  | removed (device : Option GcDevice)
deriving DecidableEq, Repr

/-- Method `contains(gcId)`: `this.#config.some((item) => item.id === gcId)`. -/
def devContains (gcId : String) (s : DevicesState) : Bool :=
  s.config.any (fun item => item.id == gcId)

/-- Method `get(gcId)`: `this.#config.find((item) => item.id === gcId)`. -/
def devGet (gcId : String) (s : DevicesState) : Option GcDevice :=
  s.config.find? (fun item => item.id == gcId)

/-- Method `store()`: write `JSON.stringify(this.#config)` to the configuration file
(the success path; a write failure only logs and leaves the file as is). -/
def devStore (s : DevicesState) : DevicesState :=
  { s with file := some s.config }

/-- Method `update(device)`: replace the first record with the same id by the merge
`{...existing, ...device}` and persist.  The spread of `device` overwrites
every one of the four own fields, so the merge is `device` itself (the JS
result additionally loses the `GcDevice` prototype, which no field access in
this model can observe). -/
def devUpdate (device : GcDevice) (s : DevicesState) : Bool × DevicesState :=
  match s.config.findIdx? (fun item => item.id == device.id) with
  | some index => (true, devStore { s with config := s.config.set index device })
  | none => (false, s)

/-- Method `addOrUpdate(device)`: update when the id exists, otherwise append,
persist and fire the add callback. -/
def devAddOrUpdate (device : GcDevice) (s : DevicesState) :
    DevicesState × List GcEvent :=
  match devUpdate device s with
  | (true, s') => (s', [])
  | (false, _) =>
    (devStore { s with config := s.config ++ [device] }, [GcEvent.added device])

/-- Method `remove(gcId)`: splice out the first record with this id and fire the
remove callback with it; return whether a record was removed.  Note that the
source calls no `store()` here — the configuration file is left untouched. -/
def devRemove (gcId : String) (s : DevicesState) :
    Bool × DevicesState × List GcEvent :=
  match s.config.findIdx? (fun item => item.id == gcId) with
  | some index =>
    (true, { s with config := s.config.eraseIdx index },
      [GcEvent.removed (s.config.get? index)])
  | none => (false, s, [])

/-- Method `clear()`: empty the in-memory list, delete the configuration file
(best-effort; modelled as succeeding) and fire `removeHandler(null)`. -/
def devClear (_s : DevicesState) : DevicesState × List GcEvent :=
  ({ config := [], file := none }, [GcEvent.removed none])

/-- The truthiness filter applied to each persisted `irPorts` entry on load:
`port.module && port.port && port.mode` keeps an entry only when the module
and port numbers are nonzero and the mode string is nonempty. -/
def loadIrPorts (ports : List GcIrPort) : List GcIrPort :=
  ports.filter (fun p => p.module ≠ 0 ∧ p.port ≠ 0 ∧ p.mode ≠ "")

/-- Method `load()`: a missing file empties the store and reports `false`; an existing
file is parsed back into `GcDevice` records, with the irPorts truthiness
filter applied entry-wise.  (The `JSON.parse` failure path, which leaves
`#config` unchanged, cannot arise for a file this model itself wrote.) -/
def devLoad (s : DevicesState) : Bool × DevicesState :=
  match s.file with
  | none => (false, { s with config := [] })
  | some json =>
    let cfg := json.map (fun item => { item with irPorts := loadIrPorts item.irPorts })
    (true, { s with config := cfg })

/-- Method `init(dataPath, addHandler, removeHandler)` stores the handlers and paths
(not part of this state model) and delegates to `load()`. -/
def devInit (s : DevicesState) : Bool × DevicesState := devLoad s

/-- Store states reachable from the empty, never-persisted store by the public
mutating operations (`store` runs only inside `addOrUpdate`/`update`, as in the
source; `init` is `load`). -/
inductive Reachable : DevicesState → Prop
  | empty : Reachable { config := [], file := none }
  | load {s : DevicesState} : Reachable s → Reachable (devLoad s).2
  | addOrUpdate {s : DevicesState} (device : GcDevice) :
      Reachable s → Reachable (devAddOrUpdate device s).1
  | update {s : DevicesState} (device : GcDevice) :
      Reachable s → Reachable (devUpdate device s).2
  | remove {s : DevicesState} (gcId : String) :
      Reachable s → Reachable (devRemove gcId s).2.1
  | clear {s : DevicesState} : Reachable s → Reachable (devClear s).1

/-! ### setup_flow.js — discovery filtering and the abort branch -/

/-- The wizard step enumeration `SetupSteps`. -/
inductive SetupStep where
  | INIT
  | CONFIGURATION_MODE
  | DISCOVER
  | DEVICE_CHOICE
deriving DecidableEq, Repr

/-- The module-level mutable wizard state: `discoveredDevices` (kept as the
list of candidate identifiers), `setupStep`, `cfgAddDevice` and
`manualAddress`. -/
structure SetupState where
  discoveredDevices : List String
  setupStep : SetupStep
  cfgAddDevice : Bool
  manualAddress : Bool
deriving DecidableEq, Repr

/-- The wizard state together with the configuration store it reads and
writes (`config.devices`). -/
structure DriverState where
  setup : SetupState
  devices : DevicesState
deriving DecidableEq, Repr

/-- The `AbortDriverSetup` branch of `driverSetupHandler`:
`discoveredDevices.clear()` and `setupStep = SetupSteps.INIT` (the reply is a
`SetupError`, carried elsewhere).  It runs the same way from every step. -/
def abortDriverSetup (st : DriverState) : DriverState :=
  { st with setup :=
    { st.setup with discoveredDevices := [], setupStep := SetupStep.INIT } }

/-- One entry of the `discover(35000)` result map: the advertisement
key/value pairs the filter reads (`item.get("UUID")`, `item.get("Make")`).
`none` models a missing key (`undefined`). -/
structure DiscoveredItem where
  uuid : Option String
  make : Option String
deriving DecidableEq, Repr

/-- The network-scan branch of `handleDiscovery`: one checkbox per discovered
item, skipping items without a `UUID`, items whose id is already configured
when `cfgAddDevice` is set, and Unfolded Circle docks — in that source order.
The result is the list of presented candidate identifiers. -/
def scanCandidates (cfgAddDevice : Bool) (storeIds : List String)
    (items : List DiscoveredItem) : List String :=
  items.filterMap fun item =>
    match item.uuid with
    | none => none
    | some id =>
      if cfgAddDevice && storeIds.contains id then none
      else if item.make == some "Unfolded Circle" then none
      else some id

/-- The fields of a `retrieveDeviceInfo` reply that the manual-address branch
reads. -/
structure DeviceInfo where
  productFamily : String
  host : String
  version : String
deriving DecidableEq, Repr

/-- The expression `deviceInfo.host.replaceAll(".", "")`. -/
def stripDots (s : String) : String := String.mk (s.data.filter (fun c => c ≠ '.'))

/-- The id the manual-address branch derives for the probed device:
`{productFamily}_{host with dots removed}`. -/
def manualId (info : DeviceInfo) : String :=
  info.productFamily ++ "_" ++ stripDots info.host

/-- The manual-address branch of `handleDiscovery`, after a successful
`retrieveDeviceInfo`: the candidate is stored in `discoveredDevices` and its
checkbox is pushed unconditionally — the `cfgAddDevice && contains(id)` test
in the source guards nothing but a debug log line. -/
def manualCandidates (cfgAddDevice : Bool) (storeIds : List String)
    (info : DeviceInfo) : List String :=
  let id := manualId info
  let _skipLogged := cfgAddDevice && storeIds.contains id
  [id]

/-! ## Evaluation helpers -/

lemma jsRound_109 : jsRound (1000000 / (((109 : Int) : ℚ) * (241246 / 1000000))) = 38029 := by
  norm_num [jsRound]

lemma string_append_empty (s : String) : s ++ "" = s := by
  cases s
  simp [String.append]

lemma intercalate_comma_nil : ",".intercalate ([] : List String) = "" := rfl

lemma frequencyStr_some_109 : frequencyStr (some (109 : Int)) = "38029" := by
  simp only [frequencyStr, jsRound_109]
  rfl

/-! ## C1: translation of accepted raw codes -/

/-- C1: for every accepted raw portable IR code — token split `t0 :: ts` where
the marker token passes the source's acceptance test, with decoded duration
list `D` (the tokens after the marker, parsed base-16) having a positive
carrier period — and every repeatCount `r`, the translation returns the
comma-joined string `frequency,repeatCount,offset,d4,d5,…` with
`frequency = round(1000000 / (D[0] * 0.241246))`, `offset = D[1]*2+1` when both
`D[1] > 0` and `D[2] > 0` and `offset = 1` otherwise, and `d4..` the values
`D[3], D[4], …` in original order, decimal. -/
theorem convertPronto_accepted_raw_output (s : String) (r : Int) (t0 : String)
    (ts : List String) (D : List Int) (hsplit : splitTokens s = t0 :: ts)
    (hmarker : jsParseInt t0 none = some 0)
    (hparse : ts.map (fun t => jsParseInt t (some 16)) = D.map some)
    (hne : D ≠ []) (hd0 : 0 < D.head!) :
    convertProntoToGlobalCache s r =
      Except.ok (toString (specFrequency D.head!) ++ "," ++ toString r ++ "," ++
        toString (specOffset D) ++ "," ++
        String.intercalate "," ((D.drop 3).map (fun n => toString n))) :=
  convert_ok_of_accepted s r t0 ts D hsplit hmarker hparse hne hd0

/-- C1 witness: the concrete raw code `0000 006D 0001 0001 0010 0020` with
repeat count 1 translates to `38029,1,3,16,32`. -/
theorem convertPronto_accepted_raw_output_witness :
    convertProntoToGlobalCache "0000 006D 0001 0001 0010 0020" 1 =
      Except.ok "38029,1,3,16,32" := by
  have h := convertPronto_accepted_raw_output "0000 006D 0001 0001 0010 0020" 1
    "0000" ["006D", "0001", "0001", "0010", "0020"] [109, 1, 1, 16, 32]
    (by decide) (by decide) (by decide) (by decide) (by decide)
  rw [h]
  have he : List.head! ([109, 1, 1, 16, 32] : List Int) = 109 := rfl
  rw [he, show specFrequency (109 : Int) = 38029 from jsRound_109]
  rfl

/-! ## C2: the marker check accepts hex markers with letter digits (code bug) -/

/-- C2 evaluation at the failing input: the 4-digit hexadecimal marker token
`000A` decodes (base 16) to 10 ≠ 0, yet the conversion succeeds and returns a
converted string, because the source checks the marker with radix-10
`parseInt`, which stops at the letter `A` and yields 0. -/
theorem convertPronto_accepts_nonzero_hex_marker :
    convertProntoToGlobalCache "000A 006D 0001 0001 0010" 1 =
      Except.ok "38029,1,3,16" := by
  have h := convert_ok_of_accepted "000A 006D 0001 0001 0010" 1
    "000A" ["006D", "0001", "0001", "0010"] [109, 1, 1, 16]
    (by decide) (by decide) (by decide) (by decide) (by decide)
  rw [h]
  have he : List.head! ([109, 1, 1, 16] : List Int) = 109 := rfl
  rw [he, show specFrequency (109 : Int) = 38029 from jsRound_109]
  rfl

/-! ## C10: codes with at most three decoded durations end in a comma -/

/-- C10: for every accepted raw portable code whose decoded duration list has
at most three entries after the marker, the translation returns exactly
`frequency,repeatCount,offset,` — a string with a trailing comma and nothing
after the final separator. -/
theorem convertPronto_short_code_trailing_comma (s : String) (r : Int)
    (t0 : String) (ts : List String) (D : List Int)
    (hsplit : splitTokens s = t0 :: ts)
    (hmarker : jsParseInt t0 none = some 0)
    (hparse : ts.map (fun t => jsParseInt t (some 16)) = D.map some)
    (hlen : D.length ≤ 3) :
    convertProntoToGlobalCache s r =
      Except.ok (frequencyStr (jsIndex (D.map some) 0) ++ "," ++ toString r ++
        "," ++ toString (specOffset D) ++ ",") := by
  simp only [convertProntoToGlobalCache, hsplit, List.headD_cons, List.tail_cons]
  match D, hlen with
  | [], _ =>
    simp [hmarker, hparse, jsIndex, jsGtZero, specOffset,
      intercalate_comma_nil, string_append_empty]
  | [d0], _ =>
    simp [hmarker, hparse, jsIndex, jsGtZero, specOffset,
      intercalate_comma_nil, string_append_empty]
  | [d0, d1], _ =>
    simp [hmarker, hparse, jsIndex, jsGtZero, specOffset,
      intercalate_comma_nil, string_append_empty]
  | [d0, d1, d2], _ =>
    by_cases h1 : (0 : Int) < d1 <;> by_cases h2 : (0 : Int) < d2 <;>
      simp [hmarker, hparse, jsIndex, jsGtZero, specOffset, h1, h2,
        intercalate_comma_nil, string_append_empty]

/-- C10 witness: `0000 006D 0001 0001` (three durations after the marker) with
repeat count 2 yields `38029,2,3,` — offset value, then a final comma, nothing
after it. -/
theorem convertPronto_short_code_trailing_comma_witness :
    convertProntoToGlobalCache "0000 006D 0001 0001" 2 =
      Except.ok "38029,2,3," := by
  have h := convertPronto_short_code_trailing_comma "0000 006D 0001 0001" 2
    "0000" ["006D", "0001", "0001"] [109, 1, 1]
    (by decide) (by decide) (by decide) (by decide)
  rw [h]
  have he : jsIndex (([109, 1, 1] : List Int).map some) 0 = some 109 := rfl
  rw [he, frequencyStr_some_109]
  rfl

/-! ## C9: aborting the wizard -/

/-- C9: aborting the onboarding wizard from any wizard state clears the
transient set of discovered candidate devices and resets the wizard step to
INIT, while leaving the Configuration Store's record set unchanged. -/
theorem abort_resets_wizard_preserves_store (st : DriverState) :
    (abortDriverSetup st).setup.discoveredDevices = [] ∧
    (abortDriverSetup st).setup.setupStep = SetupStep.INIT ∧
    (abortDriverSetup st).devices = st.devices :=
  ⟨rfl, rfl, rfl⟩

/-! ## C7: discovery filtering (manual-address path, code bug) -/

/-- C7 evaluation at the failing input: in "add device" mode, a manually
probed device whose derived id `GC-100_19216811` is already in the
Configuration Store is still presented as a candidate — the source's
`cfgAddDevice && contains(id)` test guards only a debug log, not the checkbox
push. -/
theorem manual_discovery_presents_already_configured :
    manualId { productFamily := "GC-100", host := "192.168.1.1", version := "1.0" } =
        "GC-100_19216811" ∧
    manualCandidates true ["GC-100_19216811"]
        { productFamily := "GC-100", host := "192.168.1.1", version := "1.0" } =
      ["GC-100_19216811"] := by
  constructor <;> decide

/-! ## Session helpers for C3 and C8 -/

lemma splitTokensAux_ne_nil (cs acc : List Char) : splitTokensAux cs acc ≠ [] := by
  induction cs generalizing acc with
  | nil => simp [splitTokensAux]
  | cons c rest ih =>
    unfold splitTokensAux
    by_cases h : isSepChar c
    · simp [h]
    · simpa [h] using ih (c :: acc)

/-- A successful conversion never returns the empty string: the output always
carries at least the three separator commas. -/
lemma convert_ok_ne_empty (pronto : String) (r : Int) (out : String)
    (h : convertProntoToGlobalCache pronto r = Except.ok out) : out ≠ "" := by
  simp only [convertProntoToGlobalCache] at h
  by_cases hm : jsParseInt ((splitTokens pronto).headD "") none ≠ some 0
  · rw [if_pos hm] at h; cases h
  · rw [if_neg hm] at h
    injection h with h'
    intro he
    have hlen := congrArg String.length h'
    rw [he] at hlen
    have h1 : ("," : String).length = 1 := rfl
    have h0 : ("" : String).length = 0 := rfl
    simp only [String.length_append, h1, h0] at hlen
    omega

/-- Unpacking a successful `sendPronto`: the translation succeeded, the dedup
memory now holds the (port, payload) signature, and either the signature was
unchanged and the whole state was kept, or it differed and the command id
advanced with the wrap at 65535. -/
lemma sendPronto_ok_cases (port pronto : String) (rep : Int) (s s' : DeviceSession)
    (m : String) (h : sendPronto port pronto rep s = Except.ok (s', m)) :
    ∃ sendIr,
      convertProntoToGlobalCache pronto (if rep > 0 then rep else 1) = Except.ok sendIr ∧
      s'.lastSendIrPort = port ∧ s'.lastSendIr = sendIr ∧
      ((s.lastSendIrPort = port ∧ s.lastSendIr = sendIr ∧ s' = s) ∨
        ((s.lastSendIrPort ≠ port ∨ s.lastSendIr ≠ sendIr) ∧
          s'.irId = if s.irId + 1 > 65535 then 1 else s.irId + 1)) := by
  unfold sendPronto at h
  split at h
  · cases h
  · rename_i sendIr heq
    split at h
    · rename_i hcond
      injection h with h'
      injection h' with hA hB
      subst hA
      exact ⟨sendIr, heq, rfl, rfl, Or.inr ⟨hcond, rfl⟩⟩
    · rename_i hcond
      push_neg at hcond
      injection h with h'
      injection h' with hA hB
      subst hA
      exact ⟨sendIr, heq, hcond.1, hcond.2, Or.inl ⟨hcond.1, hcond.2, rfl⟩⟩

/-! ## C3: command-id sequencing -/

/-- C3: starting from any session state with the command id in [1, 65535], for
two consecutive `sendInfrared` sends with no other send in between: an
identical (port, code, repeat) second call reuses the first call's command id;
a second call differing in port or in translated payload advances the id by
exactly 1, with 65535 advancing to 1; and the id stays in [1, 65535]. -/
theorem sendPronto_command_id_sequencing
    (s : DeviceSession) (hlo : 1 ≤ s.irId) (hhi : s.irId ≤ 65535)
    (port pronto : String) (rep : Int) (port2 pronto2 : String) (rep2 : Int)
    (s1 s2 : DeviceSession) (m1 m2 : String)
    (hfirst : sendPronto port pronto rep s = Except.ok (s1, m1))
    (hsecond : sendPronto port2 pronto2 rep2 s1 = Except.ok (s2, m2)) :
    ((port2 = port ∧ pronto2 = pronto ∧ rep2 = rep) → s2.irId = s1.irId) ∧
    ((port2 ≠ port ∨
        convertProntoToGlobalCache pronto2 (if rep2 > 0 then rep2 else 1) ≠
          convertProntoToGlobalCache pronto (if rep > 0 then rep else 1)) →
      s2.irId = if s1.irId = 65535 then 1 else s1.irId + 1) ∧
    1 ≤ s2.irId ∧ s2.irId ≤ 65535 := by
  obtain ⟨ir1, hc1, hp1, hi1, hbr1⟩ := sendPronto_ok_cases _ _ _ _ _ _ hfirst
  obtain ⟨ir2, hc2, hp2, hi2, hbr2⟩ := sendPronto_ok_cases _ _ _ _ _ _ hsecond
  have h1lo : 1 ≤ s1.irId := by
    rcases hbr1 with ⟨-, -, rfl⟩ | ⟨-, hadv⟩
    · exact hlo
    · rw [hadv]; by_cases hcase : s.irId + 1 > 65535 <;> simp [hcase]
  have h1hi : s1.irId ≤ 65535 := by
    rcases hbr1 with ⟨-, -, rfl⟩ | ⟨-, hadv⟩
    · exact hhi
    · rw [hadv]; by_cases hcase : s.irId + 1 > 65535 <;> simp [hcase] <;> omega
  refine ⟨?_, ?_, ?_, ?_⟩
  · rintro ⟨rfl, rfl, rfl⟩
    have hir : ir2 = ir1 := by
      have h := hc1.symm.trans hc2
      injection h with h'
      exact h'.symm
    subst hir
    rcases hbr2 with ⟨-, -, rfl⟩ | ⟨hcond, -⟩
    · rfl
    · rcases hcond with hco | hco
      · exact absurd hp1 hco
      · exact absurd hi1 hco
  · intro hdiff
    rcases hbr2 with ⟨hportEq, hirEq, rfl⟩ | ⟨-, hadv⟩
    · exfalso
      rcases hdiff with hne | hne
      · exact hne (hportEq.symm.trans hp1)
      · have hir : ir2 = ir1 := hirEq.symm.trans hi1
        exact hne (by rw [hc2, hc1, hir])
    · rw [hadv]
      by_cases hcase : s1.irId = 65535
      · simp [hcase]
      · have hlt : ¬s1.irId + 1 > 65535 := by omega
        simp [hcase, hlt]
  · rcases hbr2 with ⟨-, -, rfl⟩ | ⟨-, hadv⟩
    · exact h1lo
    · rw [hadv]; by_cases hcase : s1.irId + 1 > 65535 <;> simp [hcase]
  · rcases hbr2 with ⟨-, -, rfl⟩ | ⟨-, hadv⟩
    · exact h1hi
    · rw [hadv]; by_cases hcase : s1.irId + 1 > 65535 <;> simp [hcase] <;> omega

/-! ## Concrete session runs (used by the C3 and C8 witnesses) -/

def witnessPronto : String := "0000 006D 0001 0001 0010"

def witnessPayload : String := "38029,1,3,16"

/-- Session state after a first send on port `1:1` from a fresh session. -/
def witnessSession1 : DeviceSession :=
  { lastSendIrPort := "1:1", lastSendIr := witnessPayload, irId := 2 }

def witnessMsg1 : String := "sendir,1:1,2," ++ witnessPayload

/-- Session state after a follow-up send on the other port `1:2`. -/
def witnessSession2 : DeviceSession :=
  { lastSendIrPort := "1:2", lastSendIr := witnessPayload, irId := 3 }

def witnessMsg2 : String := "sendir,1:2,3," ++ witnessPayload

/-- Session state after a raw send followed by the same infrared send again. -/
def witnessSession3 : DeviceSession :=
  { lastSendIrPort := "1:1", lastSendIr := witnessPayload, irId := 3 }

def witnessMsg3 : String := "sendir,1:1,3," ++ witnessPayload

lemma convert_witnessPronto :
    convertProntoToGlobalCache witnessPronto (if (1 : Int) > 0 then 1 else 1) =
      Except.ok witnessPayload := by
  have h := convert_ok_of_accepted witnessPronto 1 "0000"
    ["006D", "0001", "0001", "0010"] [109, 1, 1, 16]
    (by decide) (by decide) (by decide) (by decide) (by decide)
  rw [show (if (1 : Int) > 0 then (1 : Int) else 1) = 1 by norm_num, h]
  rw [show List.head! ([109, 1, 1, 16] : List Int) = 109 from rfl,
    show specFrequency (109 : Int) = 38029 from jsRound_109]
  rfl

lemma sendPronto_first_eval :
    sendPronto "1:1" witnessPronto 1 initSession =
      Except.ok (witnessSession1, witnessMsg1) := by
  unfold sendPronto
  rw [convert_witnessPronto]
  rfl

lemma sendPronto_other_port_eval :
    sendPronto "1:2" witnessPronto 1 witnessSession1 =
      Except.ok (witnessSession2, witnessMsg2) := by
  unfold sendPronto
  rw [convert_witnessPronto]
  rfl

lemma sendPronto_after_raw_eval :
    sendPronto "1:1" witnessPronto 1 (send "getdevices" witnessSession1) =
      Except.ok (witnessSession3, witnessMsg3) := by
  unfold sendPronto
  rw [convert_witnessPronto]
  rfl

/-- C3 witness: a first send from the fresh session (id 1 → 2) followed by the
same code on port `1:2` advances the id to 3 = 2 + 1. -/
theorem sendPronto_command_id_sequencing_witness :
    witnessSession2.irId =
      if witnessSession1.irId = 65535 then 1 else witnessSession1.irId + 1 :=
  (sendPronto_command_id_sequencing initSession (by decide) (by decide)
      "1:1" witnessPronto 1 "1:2" witnessPronto 1
      witnessSession1 witnessSession2 witnessMsg1 witnessMsg2
      sendPronto_first_eval sendPronto_other_port_eval).2.1
    (Or.inl (by decide))

/-! ## C8: raw sends invalidate the infrared dedup memory -/

/-- C8: after any `sendRaw` call, the next `sendInfrared` advances the command
id — does not reuse the previous id — even when its (port, code, repeat) is
identical to the last infrared send before the raw send. -/
theorem sendRaw_invalidates_ir_dedup
    (s0 s1 s2 : DeviceSession) (m1 m2 : String) (raw : String)
    (port pronto : String) (rep : Int)
    (hfirst : sendPronto port pronto rep s0 = Except.ok (s1, m1))
    (hsecond : sendPronto port pronto rep (send raw s1) = Except.ok (s2, m2)) :
    s2.irId = (if s1.irId + 1 > 65535 then 1 else s1.irId + 1) ∧
    s2.irId ≠ s1.irId := by
  obtain ⟨ir2, hc2, -, hi2, hbr2⟩ := sendPronto_ok_cases _ _ _ _ _ _ hsecond
  have hne : ir2 ≠ "" := convert_ok_ne_empty _ _ _ hc2
  rcases hbr2 with ⟨-, hirEq, -⟩ | ⟨-, hadv⟩
  · exact absurd hirEq.symm hne
  · constructor
    · exact hadv
    · rw [hadv, show (send raw s1).irId = s1.irId from rfl]
      by_cases hcase : s1.irId + 1 > 65535 <;> simp [hcase] <;> omega

/-- C8 witness: send, raw send, then the identical send again — the id moves
from 2 to 3 instead of being reused. -/
theorem sendRaw_invalidates_ir_dedup_witness :
    witnessSession3.irId =
      (if witnessSession1.irId + 1 > 65535 then 1 else witnessSession1.irId + 1) ∧
    witnessSession3.irId ≠ witnessSession1.irId :=
  sendRaw_invalidates_ir_dedup initSession witnessSession1 witnessSession3
    witnessMsg1 witnessMsg3 "getdevices" "1:1" witnessPronto 1
    sendPronto_first_eval sendPronto_after_raw_eval

/-! ## C4 counterexample: store/load drops falsy irPort fields -/

/-- A device record whose only IR port has module number 0 — a value the
load-time truthiness filter treats as falsy. -/
def sampleZeroModuleDevice : GcDevice :=
  { id := "d1", name := "itach", address := "192.168.16.16",
    irPorts := [{ module := 0, port := 1, mode := "IR" }] }

/-- C4 counterexample: a record whose only IR port has module number 0 does
not survive a `store()`/`load()` round-trip — the load-time truthiness filter
`port.module && port.port && port.mode` silently drops the port entry, so the
reloaded record set differs from the pre-store set. -/
theorem store_load_drops_zero_module_port :
    (devLoad (devStore { config := [sampleZeroModuleDevice], file := none })).2.config ≠
      [sampleZeroModuleDevice] := by
  decide

/-! ## C5 counterexample: remove does not persist -/

/-- A plain device record used to exhibit the non-persisting `remove`. -/
def sampleRemoveDevice : GcDevice :=
  { id := "d1", name := "itach", address := "192.168.16.16:4998", irPorts := [] }

/-- The store state holding `sampleRemoveDevice` both in memory and in the
persisted file (the state `addOrUpdate` leaves behind on an empty store). -/
def sampleRemoveState : DevicesState :=
  { config := [sampleRemoveDevice], file := some [sampleRemoveDevice] }

/-- C5 counterexample: removing the only record from a store whose file holds
that record leaves the file still holding it — `remove` fires the callback and
splices the record out of memory but never writes the configuration file, so
the file does not equal the serialized post-remove record set. -/
theorem remove_leaves_file_unchanged :
    (devRemove "d1" sampleRemoveState).2.1.file ≠
      some (devRemove "d1" sampleRemoveState).2.1.config := by
  decide

/-! ## Store helpers for C4, C5 and C6 -/

/-- The id column of a record list. -/
def configIds (l : List GcDevice) : List String := l.map (fun d => d.id)

lemma find?_set_of_findIdx? (l : List GcDevice) (r : GcDevice) (i : Nat)
    (h : l.findIdx? (fun item => item.id == r.id) = some i) :
    (l.set i r).find? (fun item => item.id == r.id) = some r := by
  induction l generalizing i with
  | nil => simp [List.findIdx?_nil] at h
  | cons a l ih =>
    rw [List.findIdx?_cons] at h
    by_cases hp : (a.id == r.id) = true
    · rw [if_pos hp] at h
      injection h with h0
      subst h0
      simp [List.find?_cons]
    · rw [if_neg hp, List.findIdx?_succ] at h
      cases hj : l.findIdx? (fun item => item.id == r.id) with
      | none => rw [hj] at h; cases h
      | some j =>
        rw [hj] at h
        injection h with h'
        subst h'
        simpa [List.find?_cons, hp] using ih j hj

lemma find?_append_singleton (l : List GcDevice) (r : GcDevice)
    (h : l.findIdx? (fun item => item.id == r.id) = none) :
    (l ++ [r]).find? (fun item => item.id == r.id) = some r := by
  induction l with
  | nil => simp [List.find?_cons]
  | cons a l ih =>
    rw [List.findIdx?_cons] at h
    by_cases hp : (a.id == r.id) = true
    · rw [if_pos hp] at h; cases h
    · rw [if_neg hp, List.findIdx?_succ, Option.map_eq_none'] at h
      simpa [List.find?_cons, hp] using ih h

lemma map_id_set_of_findIdx? (l : List GcDevice) (r : GcDevice) (i : Nat)
    (h : l.findIdx? (fun item => item.id == r.id) = some i) :
    configIds (l.set i r) = configIds l := by
  induction l generalizing i with
  | nil => simp [List.findIdx?_nil] at h
  | cons a l ih =>
    rw [List.findIdx?_cons] at h
    by_cases hp : (a.id == r.id) = true
    · rw [if_pos hp] at h
      injection h with h0
      subst h0
      have : a.id = r.id := eq_of_beq hp
      simp [configIds, this]
    · rw [if_neg hp, List.findIdx?_succ] at h
      cases hj : l.findIdx? (fun item => item.id == r.id) with
      | none => rw [hj] at h; cases h
      | some j =>
        rw [hj] at h
        injection h with h'
        subst h'
        simpa [configIds] using ih j hj

lemma notMem_of_findIdx?_none (l : List GcDevice) (r : GcDevice)
    (h : l.findIdx? (fun item => item.id == r.id) = none) :
    r.id ∉ configIds l := by
  have hall := List.findIdx?_eq_none_iff.mp h
  simp only [configIds, List.mem_map]
  rintro ⟨d, hd, hid⟩
  have := hall d hd
  rw [hid] at this
  simp at this

lemma contains_eq_findIdx?_isSome (gcId : String) (s : DevicesState) :
    devContains gcId s = (s.config.findIdx? (fun item => item.id == gcId)).isSome := by
  unfold devContains
  generalize s.config = l
  induction l with
  | nil => simp [List.findIdx?_nil]
  | cons a l ih =>
    rw [List.any_cons, List.findIdx?_cons]
    by_cases hp : (a.id == gcId) = true
    · simp [hp]
    · simp [hp, List.findIdx?_succ, ih]

lemma find?_eq_get?_of_findIdx? (l : List GcDevice) (p : GcDevice → Bool) (i : Nat)
    (h : l.findIdx? p = some i) : l.find? p = l.get? i := by
  induction l generalizing i with
  | nil => simp [List.findIdx?_nil] at h
  | cons a l ih =>
    rw [List.findIdx?_cons] at h
    by_cases hp : p a = true
    · rw [if_pos hp] at h
      injection h with h0
      subst h0
      simp [List.find?_cons, hp]
    · rw [if_neg hp, List.findIdx?_succ] at h
      cases hj : l.findIdx? p with
      | none => rw [hj] at h; cases h
      | some j =>
        rw [hj] at h
        injection h with h'
        subst h'
        simpa [List.find?_cons, hp] using ih j hj

/-! ## C4: configuration round-trips (amended) -/

/-- C4 (amended): `addOrUpdate(r)` followed by `get(r.id)` returns `r`
field-wise for every store state; and `store()` followed by `load()` restores
the pre-store record list — order and fields included — provided every
persisted IR port has a nonzero module number, a nonzero port number and a
nonempty mode string (entries with a falsy field are dropped by the load-time
truthiness filter, as the counterexample shows). -/
theorem config_addOrUpdate_get_and_roundtrip (s : DevicesState) (r : GcDevice)
    (hports : ∀ d ∈ s.config, ∀ p ∈ d.irPorts,
      p.module ≠ 0 ∧ p.port ≠ 0 ∧ p.mode ≠ "") :
    devGet r.id (devAddOrUpdate r s).1 = some r ∧
    (devLoad (devStore s)).2.config = s.config := by
  constructor
  · cases hidx : s.config.findIdx? (fun item => item.id == r.id) with
    | some i =>
      simp only [devAddOrUpdate, devUpdate, hidx, devStore, devGet]
      exact find?_set_of_findIdx? _ _ _ hidx
    | none =>
      simp only [devAddOrUpdate, devUpdate, hidx, devStore, devGet]
      exact find?_append_singleton _ _ hidx
  · simp only [devLoad, devStore]
    have hfix : ∀ d ∈ s.config,
        ({ d with irPorts := loadIrPorts d.irPorts } : GcDevice) = d := by
      intro d hd
      have hflt : loadIrPorts d.irPorts = d.irPorts :=
        List.filter_eq_self.mpr (fun p hp => by simpa using hports d hd p hp)
      rw [hflt]
    rw [List.map_congr_left hfix, List.map_id']

/-- Devices with healthy (nonzero/nonempty) IR port descriptors. -/
def roundtripRecordA : GcDevice :=
  { id := "a", name := "gc1", address := "192.168.16.1",
    irPorts := [{ module := 4, port := 1, mode := "IR" }] }

def roundtripRecordB : GcDevice :=
  { id := "b", name := "gc2", address := "192.168.16.2:4999",
    irPorts := [{ module := 1, port := 3, mode := "IR_BLASTER" }] }

def roundtripState : DevicesState := { config := [roundtripRecordA], file := none }

/-- C4 witness: adding record `b` to a store holding record `a` makes `get`
return `b`, and the store/load round-trip restores the record list. -/
theorem config_addOrUpdate_get_and_roundtrip_witness :
    devGet roundtripRecordB.id (devAddOrUpdate roundtripRecordB roundtripState).1 =
        some roundtripRecordB ∧
    (devLoad (devStore roundtripState)).2.config = roundtripState.config :=
  config_addOrUpdate_get_and_roundtrip roundtripState roundtripRecordB (by decide)

/-! ## C5: remove semantics (amended) -/

/-- C5 (amended): `remove(id)` on an absent id returns false, fires no
callback and leaves the store (memory and file) unchanged; on a present id it
removes the first record with that id, returns true and fires the remove
callback exactly once with that record — but it does not persist: the backing
file is left exactly as it was (the counterexample shows the file keeping the
removed record). -/
theorem devices_remove_spec (s : DevicesState) (gcId : String) :
    (devContains gcId s = false → devRemove gcId s = (false, s, [])) ∧
    (devContains gcId s = true →
      (devRemove gcId s).1 = true ∧
      (devRemove gcId s).2.1.file = s.file ∧
      (devRemove gcId s).2.2 = [GcEvent.removed (devGet gcId s)] ∧
      ∃ i, s.config.findIdx? (fun item => item.id == gcId) = some i ∧
        (devRemove gcId s).2.1.config = s.config.eraseIdx i) := by
  rw [contains_eq_findIdx?_isSome]
  cases hidx : s.config.findIdx? (fun item => item.id == gcId) with
  | none =>
    refine ⟨fun _ => ?_, fun h => ?_⟩
    · simp only [devRemove, hidx]
    · simp at h
  | some i =>
    refine ⟨fun h => ?_, fun _ => ?_⟩
    · simp at h
    · refine ⟨?_, ?_, ?_, i, rfl, ?_⟩
      · simp only [devRemove, hidx]
      · simp only [devRemove, hidx]
      · simp only [devRemove, hidx, devGet,
          find?_eq_get?_of_findIdx? s.config _ i hidx]
      · simp only [devRemove, hidx]

/-- C5 witness: removing the present id `d1` returns true, leaves the file as
it was, and fires the remove callback once with the removed record. -/
theorem devices_remove_spec_witness :
    (devRemove "d1" sampleRemoveState).1 = true ∧
    (devRemove "d1" sampleRemoveState).2.1.file = sampleRemoveState.file ∧
    (devRemove "d1" sampleRemoveState).2.2 =
      [GcEvent.removed (devGet "d1" sampleRemoveState)] := by
  have h := (devices_remove_spec sampleRemoveState "d1").2 (by decide)
  exact ⟨h.1, h.2.1, h.2.2.1⟩

/-! ## C6: id uniqueness is an invariant -/

/-- The inductive invariant: ids are unique in memory and in the persisted
file. -/
def StoreInv (s : DevicesState) : Prop :=
  (configIds s.config).Nodup ∧ ∀ l, s.file = some l → (configIds l).Nodup

lemma storeInv_of_reachable (s : DevicesState) (h : Reachable s) : StoreInv s := by
  induction h with
  | empty => exact ⟨by simp [configIds], fun l hl => by cases hl⟩
  | @load s hs ih =>
    obtain ⟨hc, hf⟩ := ih
    cases hfile : s.file with
    | none => exact ⟨by simp [devLoad, hfile, configIds], fun l hl => hf l (by
        simpa [devLoad, hfile] using hl)⟩
    | some json =>
      refine ⟨?_, fun l hl => hf l (by simpa [devLoad, hfile] using hl)⟩
      have hids : configIds (json.map
          (fun item => { item with irPorts := loadIrPorts item.irPorts })) =
            configIds json := by
        simp [configIds, List.map_map]
      simpa [devLoad, hfile, hids] using hf json hfile
  | @addOrUpdate s device hs ih =>
    obtain ⟨hc, hf⟩ := ih
    cases hidx : s.config.findIdx? (fun item => item.id == device.id) with
    | some i =>
      have hids := map_id_set_of_findIdx? s.config device i hidx
      refine ⟨?_, fun l hl => ?_⟩
      · simpa [devAddOrUpdate, devUpdate, hidx, devStore, hids] using hc
      · simp only [devAddOrUpdate, devUpdate, hidx, devStore, Option.some.injEq] at hl
        rw [← hl, hids]
        exact hc
    | none =>
      have hnotmem := notMem_of_findIdx?_none s.config device hidx
      have hforall : ∀ x ∈ s.config, ¬x.id = device.id := by
        intro x hx he
        exact hnotmem (by simpa [configIds] using ⟨x, hx, he⟩)
      have hids : (configIds (s.config ++ [device])).Nodup := by
        simpa [configIds, List.nodup_append] using ⟨hc, hforall⟩
      refine ⟨?_, fun l hl => ?_⟩
      · simpa [devAddOrUpdate, devUpdate, hidx, devStore] using hids
      · simp only [devAddOrUpdate, devUpdate, hidx, devStore, Option.some.injEq] at hl
        rw [← hl]
        exact hids
  | @update s device hs ih =>
    obtain ⟨hc, hf⟩ := ih
    cases hidx : s.config.findIdx? (fun item => item.id == device.id) with
    | some i =>
      have hids := map_id_set_of_findIdx? s.config device i hidx
      refine ⟨?_, fun l hl => ?_⟩
      · simpa [devUpdate, hidx, devStore, hids] using hc
      · simp only [devUpdate, hidx, devStore, Option.some.injEq] at hl
        rw [← hl, hids]
        exact hc
    | none => exact ⟨by simpa [devUpdate, hidx] using hc,
        fun l hl => hf l (by simpa [devUpdate, hidx] using hl)⟩
  | @remove s gcId hs ih =>
    obtain ⟨hc, hf⟩ := ih
    cases hidx : s.config.findIdx? (fun item => item.id == gcId) with
    | some i =>
      refine ⟨?_, fun l hl => hf l (by simpa [devRemove, hidx] using hl)⟩
      have hsub : (s.config.eraseIdx i).Sublist s.config := List.eraseIdx_sublist _ _
      have : (configIds (s.config.eraseIdx i)).Sublist (configIds s.config) :=
        hsub.map _
      simpa [devRemove, hidx, configIds] using hc.sublist this
    | none => exact ⟨by simpa [devRemove, hidx] using hc,
        fun l hl => hf l (by simpa [devRemove, hidx] using hl)⟩
  | @clear s hs ih =>
    exact ⟨by simp [devClear, configIds], fun l hl => by simp [devClear] at hl⟩

/-- C6: in every store state reachable from the empty store by any sequence of
init/load, addOrUpdate, update, remove and clear operations — including
reloading the configuration file the store itself persisted — no two records
share the same id. -/
theorem reachable_config_ids_nodup (s : DevicesState) (h : Reachable s) :
    (configIds s.config).Nodup :=
  (storeInv_of_reachable s h).1

/-- C6 witness: the state reached by adding two records, removing one and
reloading has unique ids (the `Reachable` hypothesis is discharged by the
actual operation sequence). -/
theorem reachable_config_ids_nodup_witness :
    (configIds (devLoad (devRemove "a" (devAddOrUpdate roundtripRecordB
        (devAddOrUpdate roundtripRecordA { config := [], file := none }).1).1).2.1).2.config).Nodup :=
  reachable_config_ids_nodup _
    (Reachable.load (Reachable.remove "a" (Reachable.addOrUpdate roundtripRecordB
      (Reachable.addOrUpdate roundtripRecordA Reachable.empty))))

end GlobalCache
